import Mathlib

/-!
Verification development for the ISEKAI confidential data-serving gateway.

This file gives a shallow embedding, in Lean 4, of the parts of the
repository that the specification's claims are about:

* the numeric function-policy predicate (`crates/isekai-utils/src/lib.rs`,
  `FunctionPolicyDef`);
* the SQL identifier guard and the subject-scoped table store
  (`isekai-data-server/src/storage.rs`);
* the length-delimited `FlightData` decoder
  (`crates/isekai-utils/src/lib.rs`, `FlightDataStream::poll_next`);
* the attested `Handshake` state machine and the authenticated
  `DoGet` / `DoPut` pipelines (`isekai-data-server/src/main.rs`);
* the asynchronous Flight client facade
  (`crates/mywasi-flight/src/types_impl.rs`).

External collaborators (SQLite, the SEV-SNP verifier, serde_json, the JWKS
introspector, tokio channels) are modelled as explicit oracle parameters;
everything else is translated from the source.  Machine bytes are `Nat`
(each < 256 by construction of the inputs considered), `f32` payloads are
carried as an opaque `Int` payload (no arithmetic on them is ever needed),
and panics (`unwrap` / `expect`) are a distinguished outcome constructor.
-/

/-! ### Basic wire/status types -/

/-- gRPC status classes that the server code produces. -/
inductive GCode where
  | unauthenticated
  | internal
  | invalidArgument
  | unimplemented
  deriving DecidableEq, Repr

/-- A gRPC status: class plus diagnostic message. -/
structure GStatus where
  code : GCode
  msg : String
  deriving DecidableEq, Repr

/-- Raw bytes on the wire, each entry < 256 for the inputs considered. -/
abbrev Bytes := List Nat

/-- ASCII bytes of a string (used only on visible-ASCII strings, where the
UTF-8 encoding is one byte per char). -/
def strBytes (s : String) : Bytes := s.data.map Char.toNat

/-- `http::HeaderValue::to_str` (used by tonic's `MetadataValue::to_str`)
succeeds iff every byte is visible ASCII (32..126). -/
def visAscii (b : Nat) : Bool := 32 ≤ b && b < 127

/-- Model of `MetadataValue::to_str`: all bytes visible ASCII, decoded
bytewise. -/
def toStr (bs : Bytes) : Option String :=
  if bs.all visAscii then some ⟨bs.map Char.ofNat⟩ else none

/-- First `n` characters of a string (byte slicing `&value[0..n]` of an
ASCII string). -/
def takeChars (n : Nat) (s : String) : String := ⟨s.data.take n⟩

/-- Characters of a string after the first `n` (byte slicing `&value[n..]`
of an ASCII string). -/
def dropChars (n : Nat) (s : String) : String := ⟨s.data.drop n⟩

/-! ### Function-policy predicate
(`crates/isekai-utils/src/lib.rs`, `FunctionPolicyDef::get_num` /
`assert_value`) -/

/-- The ordering relation of a function policy (`enum NumOrd`). -/
inductive NumOrd where
  | GT | GE | EQ | LE | LT | UN
  deriving DecidableEq, Repr

/-- `FunctionPolicyError`: `assert_value`'s error. -/
structure FunctionPolicyError where
  deriving DecidableEq, Repr

/-- Rust `i64::from_str`: optional sign, at least one decimal digit,
nothing else, within the `i64` range. -/
def parseI64 (s : String) : Option Int :=
  let p : Int × List Char :=
    match s.data with
    | '+' :: rest => (1, rest)
    | '-' :: rest => (-1, rest)
    | cs => (1, cs)
  match p with
  | (sign, ds) =>
    if ds.isEmpty then none
    else if ds.all Char.isDigit then
      let n : Nat := ds.foldl (fun acc c => acc * 10 + (c.toNat - 48)) 0
      let v : Int := sign * (n : Int)
      if -(2 ^ 63) ≤ v ∧ v ≤ 2 ^ 63 - 1 then some v else none
    else none

/-- `self.num.replace('<', "").replace('>', "").replace('=', "")`:
removes every occurrence of the three comparator characters. -/
def stripCmpChars (s : String) : String :=
  ⟨s.data.filter (fun c => !(c = '<' || c = '>' || c = '='))⟩

/-- `FunctionPolicyDef::get_num` on the stored predicate string: parse the
numeric part first (failure gives `(UN, 0)`), then dispatch on the first
one or two characters. -/
def getNum (num : String) : NumOrd × Int :=
  match parseI64 (stripCmpChars num) with
  | none => (NumOrd.UN, 0)
  | some value =>
    match num.data with
    | [] => (NumOrd.UN, 0)
    | first :: rest =>
      if first = '=' then
        match rest with
        | [] => (NumOrd.UN, 0)
        | sec :: _ =>
          if sec = '<' then (NumOrd.LE, value)
          else if sec = '>' then (NumOrd.GE, value)
          else (NumOrd.EQ, value)
      else if first = '<' then (NumOrd.LT, value)
      else if first = '>' then (NumOrd.GT, value)
      else (NumOrd.UN, 0)

/-- `FunctionPolicyDef::assert_value`. -/
def assertValue (num : String) (value : Int) : Except FunctionPolicyError Bool :=
  match getNum num with
  | (NumOrd.GT, v) => .ok (decide (v < value))
  | (NumOrd.GE, v) => .ok (decide (v ≤ value))
  | (NumOrd.EQ, v) => .ok (decide (value = v))
  | (NumOrd.LE, v) => .ok (decide (value ≤ v))
  | (NumOrd.LT, v) => .ok (decide (value < v))
  | (NumOrd.UN, _) => .error ⟨⟩

/-! ### Subject-scoped SQL table store
(`isekai-data-server/src/storage.rs`) -/

/-- `is_valid_sqlid`: full match against `^[a-zA-Z][a-zA-Z0-9_]*$`. -/
def isAlphaChar (c : Char) : Bool :=
  ('a' ≤ c && c ≤ 'z') || ('A' ≤ c && c ≤ 'Z')

/-- A character allowed after the first one by the identifier regex. -/
def isAlnumU (c : Char) : Bool :=
  isAlphaChar c || ('0' ≤ c && c ≤ '9') || c = '_'

/-- `is_valid_sqlid(name)`. -/
def isValidSqlid (s : String) : Bool :=
  match s.data with
  | [] => false
  | c :: rest => isAlphaChar c && rest.all isAlnumU

/-- The Arrow data types the storage layer distinguishes
(`arrow_schema::DataType`, collapsed to the cases the code matches on). -/
inductive DataType where
  | int32 | float32 | utf8 | boolean | binary | other
  deriving DecidableEq, Repr

/-- An Arrow schema field: name and data type. -/
structure ArrowField where
  name : String
  dtype : DataType
  deriving DecidableEq, Repr

/-- Column type mapping of `create_storage`:
`Int32→INTEGER`, `Float32→REAL`, `Utf8→TEXT`, anything else→`BLOB`. -/
def typeSql : DataType → String
  | .int32 => "INTEGER"
  | .float32 => "REAL"
  | .utf8 => "TEXT"
  | _ => "BLOB"

/-- The Arrow types `insert_data` can bind as SQL parameters
(`Boolean`, `Int32`, `Float32`, `Utf8`, `Binary`); others raise
the unsupported-column error. -/
def typeSupported : DataType → Bool
  | .boolean => true
  | .int32 => true
  | .float32 => true
  | .utf8 => true
  | .binary => true
  | .other => false

/-- Observable side effects of a storage operation.  `openConn` is the
`Connection::open_with_flags` call; `prepared`/`executed` record SQL
statements reaching SQLite. -/
inductive Eff where
  | openConn
  | prepared (sql : String)
  | executed (sql : String)
  | providerRead
  deriving DecidableEq, Repr

/-- True when the trace contains no prepared or executed SQL statement. -/
def noSqlOps (t : List Eff) : Bool :=
  t.all fun e =>
    match e with
    | .openConn => true
    | .providerRead => true
    | _ => false

/-- Column-definition list of the generated `CREATE TABLE` statement;
errors on the first field name rejected by `is_valid_sqlid`, before any
SQL is issued. -/
def buildColsAux : List ArrowField → Except String (List String)
  | [] => .ok []
  | f :: rest =>
    if isValidSqlid f.name then
      (buildColsAux rest).map (fun l => (f.name ++ " " ++ typeSql f.dtype) :: l)
    else .error ("Invalid field name: " ++ f.name)

/-- `create_storage(cmd_opts, subject, schema, policy)`.
`now` is `SystemTime::now()` in Unix seconds; `exec` is the SQLite
execution oracle (`conn.execute` / `stmt.execute`).  Returns the result
together with the trace of observable effects. -/
def createStorageModel (subject : String) (schema : List ArrowField)
    (policy : Option String) (now : Nat)
    (exec : String → Except String Unit) : Except String String × List Eff :=
  let target := toString now
  let tbl := subject ++ "_" ++ target
  if isValidSqlid tbl then
    match buildColsAux schema with
    | .error e => (.error e, [Eff.openConn])
    | .ok cols =>
      let sql := "CREATE TABLE " ++ tbl ++ " (" ++ String.intercalate ", " cols ++ ")"
      match exec sql with
      | .error e => (.error e, [Eff.openConn, Eff.prepared sql, Eff.executed sql])
      | .ok _ =>
        match policy with
        | none => (.ok target, [Eff.openConn, Eff.prepared sql, Eff.executed sql])
        | some _ =>
          let psql := "INSERT INTO policy (table_name, json) VALUES (?, ?)"
          match exec psql with
          | .error e =>
            (.error e, [Eff.openConn, Eff.prepared sql, Eff.executed sql,
              Eff.prepared psql, Eff.executed psql])
          | .ok _ =>
            (.ok target, [Eff.openConn, Eff.prepared sql, Eff.executed sql,
              Eff.prepared psql, Eff.executed psql])
  else (.error ("Invalid table name: " ++ tbl), [Eff.openConn])

/-- ArrowField-name list of the `INSERT` column list; errors on the first name
rejected by `is_valid_sqlid`. -/
def buildInsertNames : List ArrowField → Except String (List String)
  | [] => .ok []
  | f :: rest =>
    if isValidSqlid f.name then
      (buildInsertNames rest).map (fun l => f.name :: l)
    else .error ("Invalid field name: " ++ f.name)

/-- The per-row `INSERT` statement of `insert_data`: every field name is
checked first (while the column list is built), then every column type
must be bindable; only then is the statement text complete. -/
def insertRowSql (tbl : String) (fields : List ArrowField) : Except String String :=
  match buildInsertNames fields with
  | .error e => .error e
  | .ok names =>
    match fields.find? (fun f => !typeSupported f.dtype) with
    | some f => .error ("Unsupported column type for field: " ++ f.name)
    | none =>
      .ok ("INSERT INTO " ++ tbl ++ " (" ++ String.intercalate ", " names
        ++ ") VALUES (" ++ String.intercalate ", " (names.map fun _ => "?") ++ ")")

/-- Prepare-and-execute of the same row statement `n` times (one per batch
row), stopping at the first SQLite error. -/
def repeatedRun (exec : String → Except String Unit) (sql : String) :
    Nat → Except String Unit × List Eff
  | 0 => (.ok (), [])
  | n + 1 =>
    match exec sql with
    | .error e => (.error e, [Eff.prepared sql, Eff.executed sql])
    | .ok _ =>
      let r := repeatedRun exec sql n
      (r.1, Eff.prepared sql :: Eff.executed sql :: r.2)

/-- `insert_data(cmd_opts, subject, target, batch)`; the batch is its
schema fields plus a row count (bound parameter values are opaque to the
SQL text and to every claim considered here). -/
def insertDataModel (subject target : String) (fields : List ArrowField)
    (numRows : Nat) (exec : String → Except String Unit) :
    Except String Unit × List Eff :=
  let tbl := subject ++ "_" ++ target
  if isValidSqlid tbl then
    match numRows with
    | 0 => (.ok (), [Eff.openConn])
    | n + 1 =>
      match insertRowSql tbl fields with
      | .error e => (.error e, [Eff.openConn])
      | .ok sql =>
        let r := repeatedRun exec sql (n + 1)
        (r.1, Eff.openConn :: r.2)
  else (.error "Invalid table name", [Eff.openConn])

/-- A dynamically typed SQLite value as `rusqlite` reports it. -/
inductive SqlVal where
  | null
  | integer (i : Int)
  | real (r : Int)
  | text (s : String)
  | blob (b : Bytes)
  deriving DecidableEq, Repr

/-- `enum StorageValue` as produced by `get_data`'s row mapper (`Int32` is
only used on the insert path, whose bound parameters are not modelled;
`f32` payloads are opaque `Int`s). -/
inductive StorageValue where
  | float32 (v : Int)
  | utf8 (s : String)
  | blob (b : Bytes)
  deriving DecidableEq, Repr

/-- The row mapper of `get_data`: try `f32` (`rusqlite` converts INTEGER
and REAL), then `String` (TEXT only), then `Vec<u8>` (BLOB); a SQL NULL
fails all three, so the row's `Err` is dropped by the
`filter_map(|v| v.ok())` that follows. -/
def rowMap : SqlVal → Option StorageValue
  | .null => none
  | .integer i => some (.float32 i)
  | .real r => some (.float32 r)
  | .text s => some (.utf8 s)
  | .blob b => some (.blob b)

/-- The surviving values of the selected column, in row order. -/
def getDataValues (rows : List SqlVal) : List StorageValue :=
  rows.filterMap rowMap

/-- `StorageValue` kind discriminators used by `get_data`'s
`values.iter().any(...)` checks. -/
def isF32 : StorageValue → Bool
  | .float32 _ => true
  | _ => false

/-- Discriminator for the `Utf8` variant. -/
def isUtf8 : StorageValue → Bool
  | .utf8 _ => true
  | _ => false

/-- The single homogeneous Arrow array `get_data` builds (each slot
`none` is an Arrow null). -/
inductive OutArray where
  | f32Arr (vs : List (Option Int))
  | utf8Arr (vs : List (Option String))
  | binArr (vs : List (Option Bytes))
  deriving DecidableEq, Repr

/-- Array-kind tags. -/
inductive ArrKind where
  | f32 | utf8 | bin
  deriving DecidableEq, Repr

/-- The kind of an output array. -/
def kindOf : OutArray → ArrKind
  | .f32Arr _ => .f32
  | .utf8Arr _ => .utf8
  | .binArr _ => .bin

/-- The kind a surviving value belongs to. -/
def valKind : StorageValue → ArrKind
  | .float32 _ => .f32
  | .utf8 _ => .utf8
  | .blob _ => .bin

/-- Number of slots of the output array. -/
def outLen : OutArray → Nat
  | .f32Arr vs => vs.length
  | .utf8Arr vs => vs.length
  | .binArr vs => vs.length

/-- Slot `i` of the output array, re-wrapped as a `StorageValue` so the
three kinds can be compared uniformly (`none` = out of range;
`some none` = an Arrow null slot). -/
def entryAt : OutArray → Nat → Option (Option StorageValue)
  | .f32Arr vs, i => (vs.get? i).map (fun o => o.map StorageValue.float32)
  | .utf8Arr vs, i => (vs.get? i).map (fun o => o.map StorageValue.utf8)
  | .binArr vs, i => (vs.get? i).map (fun o => o.map StorageValue.blob)

/-- The coercion of `get_data`: `Float32` if any surviving value is
`Float32`, else `Utf8` if any is `Utf8`, else `Binary`; surviving values
of the other kinds become nulls. -/
def coerceValues (vals : List StorageValue) : OutArray :=
  if vals.any isF32 then
    .f32Arr (vals.map fun v => match v with | .float32 x => some x | _ => none)
  else if vals.any isUtf8 then
    .utf8Arr (vals.map fun v => match v with | .utf8 s => some s | _ => none)
  else
    .binArr (vals.map fun v => match v with | .blob b => some b | _ => none)

/-- The single-column record batch `get_data` returns. -/
structure OutBatch where
  fieldName : String
  arr : OutArray
  deriving DecidableEq, Repr

/-- `get_data(cmd_opts, subject, target, column_name)`; `rows` is the
stored column's content (the SQLite oracle). -/
def getDataModel (subject target columnName : String) (rows : List SqlVal) :
    Except String OutBatch × List Eff :=
  let tbl := subject ++ "_" ++ target
  if isValidSqlid tbl then
    if isValidSqlid columnName then
      let sql := "SELECT " ++ columnName ++ " FROM " ++ tbl
      (.ok { fieldName := columnName, arr := coerceValues (getDataValues rows) },
        [Eff.openConn, Eff.prepared sql, Eff.executed sql])
    else (.error ("Invalid column name: " ++ columnName), [Eff.openConn])
  else (.error ("Invalid table name: " ++ tbl), [Eff.openConn])

/-- C5 as stated by the spec: for create, insert and get, a subject,
target or field/column name failing the identifier regex makes the
operation fail with no SQL prepared or executed.  (For `create` the
target component is the generated epoch-seconds string, so only subject
and field names are caller-controlled there.) -/
def C5Claim : Prop :=
  (∀ (subject : String) (schema : List ArrowField) (policy : Option String)
      (now : Nat) (exec : String → Except String Unit),
      (isValidSqlid subject = false ∨ ∃ f ∈ schema, isValidSqlid f.name = false) →
      (∃ e, (createStorageModel subject schema policy now exec).1 = .error e)
      ∧ noSqlOps (createStorageModel subject schema policy now exec).2 = true)
  ∧ (∀ (subject target : String) (fields : List ArrowField) (numRows : Nat)
        (exec : String → Except String Unit),
      (isValidSqlid subject = false ∨ isValidSqlid target = false
        ∨ ∃ f ∈ fields, isValidSqlid f.name = false) →
      (∃ e, (insertDataModel subject target fields numRows exec).1 = .error e)
      ∧ noSqlOps (insertDataModel subject target fields numRows exec).2 = true)
  ∧ (∀ (subject target col : String) (rows : List SqlVal),
      (isValidSqlid subject = false ∨ isValidSqlid target = false
        ∨ isValidSqlid col = false) →
      (∃ e, (getDataModel subject target col rows).1 = .error e)
      ∧ noSqlOps (getDataModel subject target col rows).2 = true)

/-- C7 as stated by the spec: `get` returns one homogeneous array whose
kind is the first non-null kind encountered, and the stored column's
null values are preserved as nulls (hence positions and length are
preserved). -/
def C7Claim : Prop :=
  ∀ (subject target col : String) (rows : List SqlVal) (b : OutBatch),
    (getDataModel subject target col rows).1 = .ok b →
    outLen b.arr = rows.length
    ∧ (∀ i, rows.get? i = some SqlVal.null → entryAt b.arr i = some none)
    ∧ kindOf b.arr =
        (match getDataValues rows with
         | [] => ArrKind.bin
         | v :: _ => valKind v)

/-! ### Length-delimited FlightData decoder
(`crates/isekai-utils/src/lib.rs`, `FlightDataStream::poll_next`).
A `FlightData` message is represented by its Protobuf encoding (which is
injective), so frame payloads are raw bytes and the inner Protobuf decode
is the identity. -/

/-- Little-endian base-128 varint encoding (Protobuf length delimiter),
with a structural fuel argument (`fuel > n` always suffices). -/
def encVarintAux : Nat → Nat → Bytes
  | 0, n => [n % 128]
  | fuel + 1, n =>
    if n < 128 then [n] else (n % 128 + 128) :: encVarintAux fuel (n / 128)

/-- `prost` varint encoding of `n`. -/
def encVarint (n : Nat) : Bytes := encVarintAux (n + 1) n

/-- `prost::length_delimiter_len`: the byte length of the canonical varint
encoding of `n` (the code adds this to the decoded length to find the
total frame size). -/
def lengthDelimiterLen (n : Nat) : Nat := (encVarint n).length

/-- `prost::decode_length_delimiter` on the buffer head: the decoded value
and the number of bytes consumed, or `none` when the buffer ends inside
the varint (the code `unwrap`s this, i.e. panics). -/
def decodeVarint : Bytes → Option (Nat × Nat)
  | [] => none
  | b :: rest =>
    if b < 128 then some (b, 1)
    else
      match decodeVarint rest with
      | none => none
      | some (v, k) => some ((b - 128) + 128 * v, k + 1)

/-- A length-delimited frame: varint of the payload length, then the
payload. -/
def encodeFrame (m : Bytes) : Bytes := encVarint m.length ++ m

/-- One iteration of `FlightDataStream::poll_next` after a chunk arrives:
append the chunk to the buffer; `unwrap` the length delimiter (`none` =
panic); if the whole frame is not yet buffered, keep the buffer and poll
again; otherwise emit the first frame's payload and retain the rest. -/
def stepChunk (buffer chunk : Bytes) : Option (Option Bytes × Bytes) :=
  let buf := buffer ++ chunk
  match decodeVarint buf with
  | none => none
  | some (len, k) =>
    if buf.length < len + lengthDelimiterLen len then some (none, buf)
    else some (some ((buf.drop k).take len), buf.drop (len + lengthDelimiterLen len))

/-- Runs the decoder over the remaining chunks of the body stream: each
chunk arrival produces at most one emitted message, and end-of-stream
(`None` from the body) discards whatever is still buffered.  `none` =
the decoder panicked. -/
def runFrom (buffer : Bytes) : List Bytes → Option (List Bytes)
  | [] => some []
  | c :: cs =>
    match stepChunk buffer c with
    | none => none
    | some (none, buf) => runFrom buf cs
    | some (some m, buf) => (runFrom buf cs).map (fun ms => m :: ms)

/-- The decoder applied to a body stream delivered as the given chunks
(initial buffer empty). -/
def decodeChunks (chunks : List Bytes) : Option (List Bytes) :=
  runFrom [] chunks

/-- C3 as stated by the spec: for every message sequence and every
partition of its concatenated length-delimited encoding into chunks, the
decoder emits exactly the original sequence. -/
def C3Claim : Prop :=
  ∀ (msgs chunks : List Bytes),
    chunks.join = (msgs.map encodeFrame).join →
    decodeChunks chunks = some msgs

/-! ### Attested handshake state machine
(`isekai-data-server/src/main.rs`, `FlightServiceImpl::handshake`) -/

/-- The verified attestation report fields the handshake inspects
(`report_data` is 64 bytes, `measurement` 48 bytes on the wire). -/
structure Report where
  report_data : Bytes
  measurement : Bytes
  deriving DecidableEq, Repr

/-- Hex digit of a value below 16 (lowercase, as `format!("{:02x}", x)`
produces). -/
def hexDigit (n : Nat) : Char :=
  if n < 10 then Char.ofNat (48 + n) else Char.ofNat (87 + n)

/-- Two-character lowercase hex of one byte. -/
def hexByte (b : Nat) : String :=
  ⟨[hexDigit (b / 16 % 16), hexDigit (b % 16)]⟩

/-- `format!("{:02x}", x)` concatenated over the token bytes. -/
def hexEncode (bs : Bytes) : String :=
  String.join (bs.map hexByte)

/-- Environment of one handshake stream: configuration, the randomness the
code draws, and the attestation-verifier oracle
(`snpguest::verify2::fetch_and_verify_async`). -/
structure HSEnv where
  useTestChallenge : Bool
  testChallenge : Bytes
  randChallenge : Bytes
  tokenBytes : Bytes
  serverLd : Option Bytes
  verify : Bytes → Except String Report

/-- Per-stream handshake state: the request counter `cnt`, the stored
challenge, and the server-wide `valid_tokens` list. -/
structure HSState where
  cnt : Nat
  challenge : Bytes
  tokens : List String
  deriving DecidableEq, Repr

/-- One loop iteration of `handshake` on an incoming request. -/
def hsStep (env : HSEnv) (st : HSState) (req : Bytes) :
    Except GStatus (HSState × Bytes) :=
  if st.cnt = 0 then
    let ch := if env.useTestChallenge then env.testChallenge else env.randChallenge
    .ok ({ st with cnt := 1, challenge := ch }, ch)
  else if st.cnt = 1 then
    match env.verify req with
    | .error e =>
      .error ⟨.unauthenticated, "failed to verify attestation report: " ++ e⟩
    | .ok r =>
      if r.report_data ≠ st.challenge then
        .error ⟨.unauthenticated, "attestation report data does not match challenge"⟩
      else
        match env.serverLd with
        | some ld =>
          if r.measurement ≠ ld then
            .error ⟨.unauthenticated, "launch digest does not match expected value"⟩
          else
            let token := hexEncode env.tokenBytes
            .ok ({ st with cnt := 2, tokens := st.tokens ++ [token] }, strBytes token)
        | none =>
          let token := hexEncode env.tokenBytes
          .ok ({ st with cnt := 2, tokens := st.tokens ++ [token] }, strBytes token)
  else .error ⟨.internal, "too many handshake requests"⟩

/-- The handshake stream loop: processes requests in order, emitting one
response per successful step; the first failing step terminates the
stream with its status. -/
def hsRun (env : HSEnv) : HSState → List Bytes → HSState × List Bytes × Option GStatus
  | st, [] => (st, [], none)
  | st, r :: rs =>
    match hsStep env st r with
    | .error s => (st, [], some s)
    | .ok (st', resp) =>
      let tail := hsRun env st' rs
      (tail.1, resp :: tail.2.1, tail.2.2)

/-! ### Authenticated DoGet / DoPut pipelines
(`isekai-data-server/src/main.rs`, `FlightServiceImpl::do_get` /
`do_put`).  The JWKS introspector, serde_json and the CSV/EDINET dataset
providers are oracle parameters of the environment. -/

/-- `struct Claims` of the server (only `sub` is consumed downstream). -/
structure Claims where
  iss : String
  sub : String
  aud : List String
  iat : Nat
  exp : Nat
  scope : String
  azp : String
  deriving DecidableEq, Repr

/-- The JWT algorithm the server validates with. -/
inductive JwtAlg where
  | RS256
  deriving DecidableEq, Repr

/-- The audience list passed to `Validation::set_audience`. -/
def jwtAudiences : List String :=
  ["https://yakserv.seera-networks.com",
   "https://seera-networks.jp.auth0.com/userinfo"]

/-- `claims.sub.replace("|", "_")` (single-character pattern, so a
character-wise map). -/
def replacePipe (s : String) : String :=
  ⟨s.data.map (fun c => if c = '|' then '_' else c)⟩

/-- `String::from_utf8_lossy` modelled bytewise (exact on ASCII input,
which is all the claims exercise). -/
def lossyString (bs : Bytes) : String := ⟨bs.map Char.ofNat⟩

/-- Bearer extraction shared by both metadata headers: missing, shorter
than 7 bytes, non-visible-ASCII, or not `"Bearer "`-prefixed values are
unauthenticated; otherwise the token is everything after the prefix. -/
def bearerFromMeta (v : Option Bytes) : Except GStatus String :=
  match v with
  | none => .error ⟨.unauthenticated, "No token"⟩
  | some bs =>
    if 7 ≤ bs.length then
      match toStr bs with
      | none => .error ⟨.unauthenticated, "invalid char"⟩
      | some s =>
        if takeChars 7 s = "Bearer " then .ok (dropChars 7 s)
        else .error ⟨.unauthenticated, "Invalid format"⟩
    else .error ⟨.unauthenticated, "too short"⟩

/-- Session-token check on `x-yak-authorization`: extraction followed by
membership in `valid_tokens`. -/
def tokenPhase (validTokens : List String) (metaYak : Option Bytes) :
    Except GStatus String :=
  match bearerFromMeta metaYak with
  | .error s => .error s
  | .ok t =>
    if validTokens.contains t then .ok t
    else .error ⟨.unauthenticated, "Invalid token: " ++ t⟩

/-- Subject determination from the `authorization` header: a failed bearer
extraction (absent or malformed header) falls back to subject `"test"`;
a carried JWT goes through the JWKS verifier with RS256 and the fixed
audiences; verification failure is unauthenticated; on success the
subject is `claims.sub` with `"|"` rewritten to `"_"`.  The `verify`
oracle bundles `decode_header`, the `kid` lookup in the JWKS and
`decode::<Claims>`. -/
def subjectPhase (verify : JwtAlg → List String → String → Except String Claims)
    (metaAuth : Option Bytes) : Except GStatus String :=
  match bearerFromMeta metaAuth with
  | .error _ => .ok "test"
  | .ok jwt =>
    match verify JwtAlg.RS256 jwtAudiences jwt with
    | .error e => .error ⟨.unauthenticated, "jwt should be valid: " ++ e⟩
    | .ok claims => .ok (replacePipe claims.sub)

/-- `auth::authenticate_subject`: if an `authorized_subject` flag is set,
the subject must equal it; otherwise all subjects pass. -/
def authenticateSubject (authorizedSubject : Option String) (subject : String) :
    Bool :=
  match authorizedSubject with
  | some a => subject = a
  | none => true

/-- `GetTicket { target, column_name }`. -/
structure GetTicket where
  target : String
  column_name : String
  deriving DecidableEq, Repr

/-- Outcome of an RPC handler: a panic (`unwrap`/`expect`), a gRPC error
status, or success. -/
inductive RpcOut (α : Type) where
  | panicked (msg : String)
  | err (s : GStatus)
  | ok (a : α)
  deriving DecidableEq, Repr

/-- Environment of the Flight service: configuration, shared token list,
and the external oracles. -/
structure ServerEnv where
  validTokens : List String
  authorizedSubject : Option String
  verify : JwtAlg → List String → String → Except String Claims
  parseTicket : String → Option GetTicket
  csvFile : Option String
  edinetDb : Option String
  csvData : String → Except GStatus Unit
  edinetData : String → Except GStatus Unit
  csvPolicy : String → String → Except String String
  edinetPolicy : String → String → Except String String
  storageRows : List SqlVal
  storagePolicy : Except String String
  exec : String → Except String Unit
  now : Nat

/-- `do_get` after the two auth phases: parse the ticket (`from_json`
`unwrap`s, so invalid JSON panics), fetch batches and policy from the
`"system"` providers or the subject store, and answer a stream whose
first Schema frame carries the policy as `app_metadata` (the success
value here is that policy string). -/
def doGetBody (env : ServerEnv) (subject : String) (ticketBytes : String) :
    RpcOut String × List Eff :=
  match env.parseTicket ticketBytes with
  | none => (.panicked "from_json unwrap", [])
  | some ticket =>
    if ticket.target = "system" then
      match (if env.csvFile.isSome then some (env.csvData ticket.column_name)
             else if env.edinetDb.isSome then some (env.edinetData ticket.column_name)
             else none) with
      | none => (.err ⟨.internal, "no data source"⟩, [])
      | some (.error s) => (.err s, [Eff.providerRead])
      | some (.ok _) =>
        match (if env.csvFile.isSome then env.csvPolicy subject ticket.column_name
               else env.edinetPolicy subject ticket.column_name) with
        | .error e =>
          (.err ⟨.internal, "failed to get policy: " ++ e⟩,
           [Eff.providerRead, Eff.providerRead])
        | .ok policy => (.ok policy, [Eff.providerRead, Eff.providerRead])
    else
      match getDataModel subject ticket.target ticket.column_name env.storageRows with
      | (.error e, tr) => (.err ⟨.internal, "failed to get data: " ++ e⟩, tr)
      | (.ok _, tr) =>
        match env.storagePolicy with
        | .error e =>
          (.err ⟨.internal, "failed to get policy: " ++ e⟩,
           tr ++ [Eff.openConn, Eff.prepared "SELECT json FROM policy WHERE table_name = ?",
                  Eff.executed "SELECT json FROM policy WHERE table_name = ?"])
        | .ok policy =>
          (.ok policy,
           tr ++ [Eff.openConn, Eff.prepared "SELECT json FROM policy WHERE table_name = ?",
                  Eff.executed "SELECT json FROM policy WHERE table_name = ?"])

/-- `FlightServiceImpl::do_get`: session-token check, subject
determination, allow-list check, then the body. -/
def doGetModel (env : ServerEnv) (metaYak metaAuth : Option Bytes)
    (ticketBytes : String) : RpcOut String × List Eff :=
  match tokenPhase env.validTokens metaYak with
  | .error s => (.err s, [])
  | .ok _ =>
    match subjectPhase env.verify metaAuth with
    | .error s => (.err s, [])
    | .ok subject =>
      if authenticateSubject env.authorizedSubject subject then
        doGetBody env subject ticketBytes
      else (.err ⟨.unauthenticated, "Unauthorized subject: " ++ subject⟩, [])

/-- One decoded item of the `do_put` input stream: a decode error
(skipped with `continue`), or a decoded payload with its
`app_metadata`. -/
inductive PutPayload where
  | nonePayload
  | schema (fields : List ArrowField)
  | batch (fields : List ArrowField) (numRows : Nat)
  deriving DecidableEq, Repr

/-- A decoded stream item. -/
inductive PutItem where
  | errItem
  | okItem (appMetadata : Bytes) (payload : PutPayload)
  deriving DecidableEq, Repr

/-- Is the item a successfully decoded Schema frame? -/
def isSchemaItem : PutItem → Bool
  | .okItem _ (.schema _) => true
  | _ => false

/-- Is the item a successfully decoded RecordBatch frame? -/
def isBatchItem : PutItem → Bool
  | .okItem _ (.batch _ _) => true
  | _ => false

/-- The `do_put` decode loop.  For each `Ok` item, a non-empty
`app_metadata` overwrites the pending policy; a Schema frame creates the
table (consuming the pending policy via `take()`); a RecordBatch frame
`expect`s the target (panicking when no Schema was seen yet) and
inserts.  Returns the final `(target, policy)` on normal exit. -/
def doPutLoop (env : ServerEnv) (subject : String)
    (target policy : Option String) :
    List PutItem → RpcOut (Option String × Option String) × List Eff
  | [] => (.ok (target, policy), [])
  | item :: rest =>
    match item with
    | .errItem => doPutLoop env subject target policy rest
    | .okItem appMeta payload =>
      let policy' := if appMeta.isEmpty then policy else some (lossyString appMeta)
      match payload with
      | .nonePayload => doPutLoop env subject target policy' rest
      | .schema fields =>
        match createStorageModel subject fields policy' env.now env.exec with
        | (.error e, tr) => (.err ⟨.internal, "Failed to create table: " ++ e⟩, tr)
        | (.ok tgt, tr) =>
          let res := doPutLoop env subject (some tgt) none rest
          (res.1, tr ++ res.2)
      | .batch fields numRows =>
        match target with
        | none => (.panicked "target not created yet", [])
        | some tgt =>
          match insertDataModel subject tgt fields numRows env.exec with
          | (.error e, tr) => (.err ⟨.internal, "Failed to update table: " ++ e⟩, tr)
          | (.ok _, tr) =>
            let res := doPutLoop env subject target policy' rest
            (res.1, tr ++ res.2)

/-- `FlightServiceImpl::do_put`: the auth pipeline, the decode loop, then
one `PutResult` whose `app_metadata` is the created target —
`expect`ing (i.e. panicking) when the stream ended with no table
created. -/
def doPutModel (env : ServerEnv) (metaYak metaAuth : Option Bytes)
    (items : List PutItem) : RpcOut String × List Eff :=
  match tokenPhase env.validTokens metaYak with
  | .error s => (.err s, [])
  | .ok _ =>
    match subjectPhase env.verify metaAuth with
    | .error s => (.err s, [])
    | .ok subject =>
      if authenticateSubject env.authorizedSubject subject then
        match doPutLoop env subject none none items with
        | (.panicked m, tr) => (.panicked m, tr)
        | (.err s, tr) => (.err s, tr)
        | (.ok (some t, _), tr) => (.ok t, tr)
        | (.ok (none, _), tr) => (.panicked "target not created yet", tr)
      else (.err ⟨.unauthenticated, "Unauthorized subject: " ++ subject⟩, [])

/-- C4 as stated by the spec: an authorized `DoGet` whose ticket body is
not valid JSON returns *invalid_argument*. -/
def C4Claim : Prop :=
  ∀ (env : ServerEnv) (metaYak metaAuth : Option Bytes) (ticket : String),
    (∃ tok, tokenPhase env.validTokens metaYak = .ok tok) →
    (∃ subj, subjectPhase env.verify metaAuth = .ok subj
      ∧ authenticateSubject env.authorizedSubject subj = true) →
    env.parseTicket ticket = none →
    ∃ m tr, doGetModel env metaYak metaAuth ticket
      = (.err ⟨GCode.invalidArgument, m⟩, tr)

/-- C8 as stated by the spec: with the `authorization` metadata absent the
subject is `"test"`; with it present, the JWT it carries is verified
(RS256, fixed audiences) and the subject is `claims.sub` with `"|"`
rewritten to `"_"`. -/
def C8Claim : Prop :=
  ∀ (verify : JwtAlg → List String → String → Except String Claims)
    (v : Bytes),
    subjectPhase verify none = .ok "test"
    ∧ (∀ s, subjectPhase verify (some v) = .ok s →
        ∃ jwt claims, v = strBytes ("Bearer " ++ jwt)
          ∧ verify JwtAlg.RS256 jwtAudiences jwt = .ok claims
          ∧ s = replacePipe claims.sub)

/-- A concrete oracle environment for witnesses: every external oracle
fails or is empty, `parseTicket` always fails (as `serde_json` does on
invalid JSON), and the token list is the given one. -/
def testEnv (tokens : List String) : ServerEnv :=
  ⟨tokens, none, fun _ _ _ => .error "", fun _ => none, none, none,
   fun _ => .error ⟨GCode.internal, ""⟩, fun _ => .error ⟨GCode.internal, ""⟩,
   fun _ _ => .error "", fun _ _ => .error "", [], .error "",
   fun _ => .ok (), 0⟩

/-! ### Asynchronous Flight client facade
(`crates/mywasi-flight/src/types_impl.rs`).  Channels, transport handles
and resource ids are opaque `Nat`s; polling a oneshot receiver is an
oracle (`PollRes`); `try_send` on the bounded data channel is an oracle
(`SendRes`). -/

/-- `enum ErrorCode` of the `flight/types` interface (the variants the
facade produces). -/
inductive ErrorCode where
  | wouldBlock
  | notInProgress
  | invalidState
  | inProgress
  | alreadyConnected
  | invalidParameter
  | connectionRefused (msg : String)
  | internalError (msg : Option String)
  deriving DecidableEq, Repr

/-- The state-class error results C6 quantifies over. -/
def isStateClassError : ErrorCode → Bool
  | .wouldBlock => true
  | .notInProgress => true
  | .invalidState => true
  | .inProgress => true
  | .alreadyConnected => true
  | .invalidParameter => true
  | _ => false

/-- Decidable equality for `Except` payloads (used by the client-state
equality checks below). -/
instance exceptDecEq {e a : Type} [DecidableEq e] [DecidableEq a] :
    DecidableEq (Except e a) := fun x y =>
  match x, y with
  | .ok u, .ok v =>
    if h : u = v then .isTrue (by rw [h])
    else .isFalse (fun hh => by cases hh; exact h rfl)
  | .error u, .error v =>
    if h : u = v then .isTrue (by rw [h])
    else .isFalse (fun hh => by cases hh; exact h rfl)
  | .ok _, .error _ => .isFalse (fun hh => by cases hh)
  | .error _, .ok _ => .isFalse (fun hh => by cases hh)

/-- `enum FlightClientState`: ready payloads carry the oneshot receive
result (`Except Unit _` is `Result<_, RecvError>`); the inner results
mirror the transport / tonic results. -/
inductive ClientState where
  | default
  | connecting (rx : Nat)
  | connectReady (res : Except Unit (Except String Nat))
  | connected (ch : Nat)
  | handshakeProgress (rx : Nat)
  | handshakeReady (res : Except Unit (Nat × Except GStatus String))
  | doGetProgress (rx : Nat)
  | doGetReady (res : Except Unit (Nat × Except GStatus Nat))
  | doPutSendProgress (tx rx : Nat)
  | doPutRecvProgress (rx : Nat)
  | doPutReady (res : Except Unit (Nat × Except GStatus Nat))
  | closed
  deriving DecidableEq, Repr

/-- Poll result of a oneshot receiver. -/
inductive PollRes (α : Type) where
  | pending
  | ready (v : α)

/-- Result of `data_tx.try_send` on the bounded (capacity 100) channel. -/
inductive SendRes where
  | okSend
  | fullQueue
  | closedChan
  deriving DecidableEq, Repr

/-- `start_connect`: only from `Default`; otherwise `AlreadyConnected`
with the state untouched. -/
def startConnect (s : ClientState) (rx : Nat) :
    ClientState × Except ErrorCode Unit :=
  match s with
  | .default => (.connecting rx, .ok ())
  | _ => (s, .error .alreadyConnected)

/-- Resolution of a completed connect: channel → `Connected`; transport
error → `Closed` + `ConnectionRefused`; receiver error → `Closed` +
`InternalError`. -/
def resolveConnect (res : Except Unit (Except String Nat)) :
    ClientState × Except ErrorCode Unit :=
  match res with
  | .ok (.ok ch) => (.connected ch, .ok ())
  | .ok (.error e) => (.closed, .error (.connectionRefused e))
  | .error _ => (.closed, .error (.internalError (some "rx error")))

/-- `finish_connect`. -/
def finishConnect (s : ClientState)
    (poll : PollRes (Except Unit (Except String Nat))) :
    ClientState × Except ErrorCode Unit :=
  match s with
  | .connectReady res => resolveConnect res
  | .connecting rx =>
    match poll with
    | .pending => (.connecting rx, .error .wouldBlock)
    | .ready res => resolveConnect res
  | other => (other, .error .notInProgress)

/-- `start_handshake`: from `Connected` only; `HandshakeProgress` gives
`InProgress`, anything else `InvalidState`, both leaving the state. -/
def startHandshake (s : ClientState) (rx : Nat) :
    ClientState × Except ErrorCode Unit :=
  match s with
  | .connected _ => (.handshakeProgress rx, .ok ())
  | .handshakeProgress p => (.handshakeProgress p, .error .inProgress)
  | other => (other, .error .invalidState)

/-- Resolution of a completed handshake: the transport always comes back
(`Connected`), the token result deciding success or `InternalError`. -/
def resolveHandshake (res : Except Unit (Nat × Except GStatus String)) :
    ClientState × Except ErrorCode Unit :=
  match res with
  | .ok (fc, .ok _) => (.connected fc, .ok ())
  | .ok (fc, .error st) => (.connected fc, .error (.internalError (some st.msg)))
  | .error _ => (.closed, .error (.internalError (some "rx error")))

/-- `finish_handshake`. -/
def finishHandshake (s : ClientState)
    (poll : PollRes (Except Unit (Nat × Except GStatus String))) :
    ClientState × Except ErrorCode Unit :=
  match s with
  | .handshakeReady res => resolveHandshake res
  | .handshakeProgress rx =>
    match poll with
    | .pending => (.handshakeProgress rx, .error .wouldBlock)
    | .ready res => resolveHandshake res
  | other => (other, .error .notInProgress)

/-- `start_do_get`. -/
def startDoGet (s : ClientState) (rx : Nat) :
    ClientState × Except ErrorCode Unit :=
  match s with
  | .connected _ => (.doGetProgress rx, .ok ())
  | .doGetProgress p => (.doGetProgress p, .error .inProgress)
  | other => (other, .error .invalidState)

/-- Resolution of a completed do-get: success pushes a new
`IncomingResponse` resource (its id is the result). -/
def resolveDoGet (res : Except Unit (Nat × Except GStatus Nat)) :
    ClientState × Except ErrorCode Nat :=
  match res with
  | .ok (fc, .ok stream) => (.connected fc, .ok stream)
  | .ok (fc, .error st) => (.connected fc, .error (.internalError (some st.msg)))
  | .error _ => (.closed, .error (.internalError (some "rx error")))

/-- `finish_do_get`. -/
def finishDoGet (s : ClientState)
    (poll : PollRes (Except Unit (Nat × Except GStatus Nat))) :
    ClientState × Except ErrorCode Nat :=
  match s with
  | .doGetReady res => resolveDoGet res
  | .doGetProgress rx =>
    match poll with
    | .pending => (.doGetProgress rx, .error .wouldBlock)
    | .ready res => resolveDoGet res
  | other => (other, .error .notInProgress)

/-- `start_do_put`. -/
def startDoPut (s : ClientState) (tx rx : Nat) :
    ClientState × Except ErrorCode Unit :=
  match s with
  | .connected _ => (.doPutSendProgress tx rx, .ok ())
  | .doPutSendProgress t r => (.doPutSendProgress t r, .error .inProgress)
  | .doPutRecvProgress r => (.doPutRecvProgress r, .error .inProgress)
  | other => (other, .error .invalidState)

/-- `do_put(data?, fin)`.  Wrong state → `InvalidState`; `data = None`
with `fin = false` → `InvalidParameter` (both before the state is taken).
Then the state has been `mem::replace`d with `Closed`; a `try_send`
failure returns through `res?` WITHOUT restoring it — a full queue
leaves the state `Closed` while reporting `WouldBlock`.  On success the
state is restored (`DoPutSendProgress`) or advanced
(`DoPutRecvProgress`). -/
def clientDoPut (s : ClientState) (data : Option Nat) (fin : Bool)
    (send : SendRes) : ClientState × Except ErrorCode Unit :=
  match s with
  | .doPutSendProgress tx rx =>
    if data.isNone && !fin then
      (.doPutSendProgress tx rx, .error .invalidParameter)
    else
      match data with
      | some _ =>
        match send with
        | .fullQueue => (.closed, .error .wouldBlock)
        | .closedChan => (.closed, .error (.internalError (some "rx closed")))
        | .okSend =>
          if fin then (.doPutRecvProgress rx, .ok ())
          else (.doPutSendProgress tx rx, .ok ())
      | none => (.doPutRecvProgress rx, .ok ())
  | other => (other, .error .invalidState)

/-- Resolution of a completed do-put (mirrors `resolveDoGet` with the
`IncomingPutResponse` resource). -/
def resolveDoPut (res : Except Unit (Nat × Except GStatus Nat)) :
    ClientState × Except ErrorCode Nat :=
  match res with
  | .ok (fc, .ok stream) => (.connected fc, .ok stream)
  | .ok (fc, .error st) => (.connected fc, .error (.internalError (some st.msg)))
  | .error _ => (.closed, .error (.internalError (some "rx error")))

/-- `finish_do_put`. -/
def finishDoPut (s : ClientState)
    (poll : PollRes (Except Unit (Nat × Except GStatus Nat))) :
    ClientState × Except ErrorCode Nat :=
  match s with
  | .doPutReady res => resolveDoPut res
  | .doPutRecvProgress rx =>
    match poll with
    | .pending => (.doPutRecvProgress rx, .error .wouldBlock)
    | .ready res => resolveDoPut res
  | other => (other, .error .notInProgress)

/-! ### Theorems -/

/-- C9: the function-policy predicate parser maps `">100"` to GT/100
(accepting 101 and rejecting 100), `"=<100"` to LE/100 (accepting 100),
and any string whose numeric part does not parse as an integer (such as
`"foo"`) to UN, on which `assert_value` errors for every input value. -/
theorem c9_function_policy_predicate :
    getNum ">100" = (NumOrd.GT, 100)
    ∧ assertValue ">100" 101 = .ok true
    ∧ assertValue ">100" 100 = .ok false
    ∧ getNum "=<100" = (NumOrd.LE, 100)
    ∧ assertValue "=<100" 100 = .ok true
    ∧ ∀ (s : String) (v : Int), parseI64 (stripCmpChars s) = none →
        getNum s = (NumOrd.UN, 0) ∧ assertValue s v = .error ⟨⟩ := by
  refine ⟨by decide, by rfl, by rfl, by decide, by rfl, ?_⟩
  intro s v h
  have hg : getNum s = (NumOrd.UN, 0) := by
    unfold getNum
    rw [h]
  refine ⟨hg, ?_⟩
  unfold assertValue
  rw [hg]

/-- Witness for C9: the hypothesis of the universally quantified clause is
satisfiable, e.g. at the spec's own example `"foo"`. -/
theorem c9_function_policy_predicate_witness :
    parseI64 (stripCmpChars "foo") = none
    ∧ getNum "foo" = (NumOrd.UN, 0) ∧ assertValue "foo" 0 = .error ⟨⟩ :=
  ⟨by decide, c9_function_policy_predicate.2.2.2.2.2 "foo" 0 (by decide)⟩

/-- A schema containing an invalid field name makes the column builder of
`create_storage` fail. -/
theorem buildColsAux_error (schema : List ArrowField)
    (h : ∃ f ∈ schema, isValidSqlid f.name = false) :
    ∃ e, buildColsAux schema = .error e := by
  induction schema with
  | nil => obtain ⟨f, hf, -⟩ := h; cases hf
  | cons g rest ih =>
    obtain ⟨f, hf, hv⟩ := h
    by_cases hg : isValidSqlid g.name
    · rcases List.mem_cons.mp hf with rfl | hmem
      · exact absurd hg (by simp [hv])
      · obtain ⟨e, he⟩ := ih ⟨f, hmem, hv⟩
        exact ⟨e, by simp [buildColsAux, hg, he, Except.map]⟩
    · exact ⟨"Invalid field name: " ++ g.name, by simp [buildColsAux, hg]⟩

/-- A field list containing an invalid name makes the insert column-list
builder fail. -/
theorem buildInsertNames_error (fields : List ArrowField)
    (h : ∃ f ∈ fields, isValidSqlid f.name = false) :
    ∃ e, buildInsertNames fields = .error e := by
  induction fields with
  | nil => obtain ⟨f, hf, -⟩ := h; cases hf
  | cons g rest ih =>
    obtain ⟨f, hf, hv⟩ := h
    by_cases hg : isValidSqlid g.name
    · rcases List.mem_cons.mp hf with rfl | hmem
      · exact absurd hg (by simp [hv])
      · obtain ⟨e, he⟩ := ih ⟨f, hmem, hv⟩
        exact ⟨e, by simp [buildInsertNames, hg, he, Except.map]⟩
    · exact ⟨"Invalid field name: " ++ g.name, by simp [buildInsertNames, hg]⟩

/-- C5 as stated is false: `get_data` (and `insert_data`) validate only the
concatenated table name `{subject}_{target}`, not the target component by
itself, so the digit-only target `"1"` fails the identifier regex while
`get` happily prepares `SELECT c FROM test_1`. -/
theorem c5_counterexample : ¬ C5Claim := by
  intro h
  obtain ⟨⟨e, he⟩, -⟩ := h.2.2 "test" "1" "c" [] (Or.inr (Or.inl (by decide)))
  rw [show (getDataModel "test" "1" "c" []).1
        = Except.ok ⟨"c", OutArray.binArr []⟩ from rfl] at he
  cases he

/-- C5 amended: the storage operations validate the concatenated table
name `{subject}_{target}` (for `create`, `{subject}_{epoch}`) and every
field/column name against the identifier regex; any of those failing makes
the operation fail with no SQL statement prepared or executed (a target
failing the regex by itself does not abort when the concatenation is a
valid identifier). -/
theorem c5_storage_identifier_guard :
    (∀ (subject : String) (schema : List ArrowField) (policy : Option String)
        (now : Nat) (exec : String → Except String Unit),
      (isValidSqlid (subject ++ "_" ++ toString now) = false
        ∨ ∃ f ∈ schema, isValidSqlid f.name = false) →
      (∃ e, (createStorageModel subject schema policy now exec).1 = .error e)
      ∧ noSqlOps (createStorageModel subject schema policy now exec).2 = true)
    ∧ (∀ (subject target : String) (fields : List ArrowField) (numRows : Nat)
          (exec : String → Except String Unit),
      (isValidSqlid (subject ++ "_" ++ target) = false
        ∨ (numRows ≠ 0 ∧ ∃ f ∈ fields, isValidSqlid f.name = false)) →
      (∃ e, (insertDataModel subject target fields numRows exec).1 = .error e)
      ∧ noSqlOps (insertDataModel subject target fields numRows exec).2 = true)
    ∧ (∀ (subject target col : String) (rows : List SqlVal),
      (isValidSqlid (subject ++ "_" ++ target) = false ∨ isValidSqlid col = false) →
      (∃ e, (getDataModel subject target col rows).1 = .error e)
      ∧ noSqlOps (getDataModel subject target col rows).2 = true) := by
  refine ⟨?_, ?_, ?_⟩
  · intro subject schema policy now exec h
    by_cases ht : isValidSqlid (subject ++ "_" ++ toString now)
    · have hf : ∃ f ∈ schema, isValidSqlid f.name = false := by
        rcases h with h | h
        · exact absurd ht (by simp [h])
        · exact h
      obtain ⟨e, he⟩ := buildColsAux_error schema hf
      constructor
      · exact ⟨e, by simp [createStorageModel, ht, he]⟩
      · simp [createStorageModel, ht, he, noSqlOps]
    · constructor
      · refine ⟨"Invalid table name: " ++ (subject ++ "_" ++ toString now), ?_⟩
        simp [createStorageModel, ht]
      · simp [createStorageModel, ht, noSqlOps]
  · intro subject target fields numRows exec h
    by_cases ht : isValidSqlid (subject ++ "_" ++ target)
    · have hf : numRows ≠ 0 ∧ ∃ f ∈ fields, isValidSqlid f.name = false := by
        rcases h with h | h
        · exact absurd ht (by simp [h])
        · exact h
      obtain ⟨e, he⟩ := buildInsertNames_error fields hf.2
      obtain ⟨n, rfl⟩ : ∃ n, numRows = n + 1 :=
        ⟨numRows - 1, by omega⟩
      constructor
      · exact ⟨e, by simp [insertDataModel, ht, insertRowSql, he]⟩
      · simp [insertDataModel, ht, insertRowSql, he, noSqlOps]
    · constructor
      · exact ⟨"Invalid table name", by simp [insertDataModel, ht]⟩
      · simp [insertDataModel, ht, noSqlOps]
  · intro subject target col rows h
    by_cases ht : isValidSqlid (subject ++ "_" ++ target)
    · have hc : isValidSqlid col = false := by
        rcases h with h | h
        · exact absurd ht (by simp [h])
        · exact h
      constructor
      · exact ⟨"Invalid column name: " ++ col, by simp [getDataModel, ht, hc]⟩
      · simp [getDataModel, ht, hc, noSqlOps]
    · constructor
      · exact ⟨"Invalid table name: " ++ (subject ++ "_" ++ target),
          by simp [getDataModel, ht]⟩
      · simp [getDataModel, ht, noSqlOps]

/-- Witness for C5's amended theorem at concrete inputs: a subject with a
space, a field name with a space, and a column name starting with a
digit. -/
theorem c5_storage_identifier_guard_witness :
    ((∃ e, (createStorageModel "bad name" [] none 0 (fun _ => Except.ok ())).1
        = Except.error e)
      ∧ noSqlOps (createStorageModel "bad name" [] none 0 (fun _ => Except.ok ())).2
        = true)
    ∧ ((∃ e, (insertDataModel "test" "tgt" [⟨"x y", DataType.int32⟩] 1
          (fun _ => Except.ok ())).1 = Except.error e)
      ∧ noSqlOps (insertDataModel "test" "tgt" [⟨"x y", DataType.int32⟩] 1
          (fun _ => Except.ok ())).2 = true)
    ∧ ((∃ e, (getDataModel "test" "t1" "0col" []).1 = Except.error e)
      ∧ noSqlOps (getDataModel "test" "t1" "0col" []).2 = true) :=
  ⟨c5_storage_identifier_guard.1 "bad name" [] none 0 (fun _ => Except.ok ())
      (Or.inl (by decide)),
   c5_storage_identifier_guard.2.1 "test" "tgt" [⟨"x y", DataType.int32⟩] 1
      (fun _ => Except.ok ())
      (Or.inr ⟨by decide, ⟨"x y", DataType.int32⟩, by decide, by decide⟩),
   c5_storage_identifier_guard.2.2 "test" "t1" "0col" [] (Or.inr (by decide))⟩

/-- The surviving-value list has one entry per non-NULL stored row. -/
theorem getDataValues_length (rows : List SqlVal) :
    (getDataValues rows).length
      = (rows.filter (fun v => !decide (v = SqlVal.null))).length := by
  induction rows with
  | nil => rfl
  | cons v rest ih =>
    cases v <;> simp [getDataValues, List.filterMap, rowMap] at ih ⊢ <;> omega

/-- The coerced array has exactly one slot per surviving value. -/
theorem coerceValues_len (vals : List StorageValue) :
    outLen (coerceValues vals) = vals.length := by
  unfold coerceValues
  split
  · simp [outLen]
  · split <;> simp [outLen]

/-- The kind of the coerced array is chosen by presence priority:
`Float32` over `Utf8` over `Binary`. -/
theorem coerceValues_kind (vals : List StorageValue) :
    kindOf (coerceValues vals)
      = (if vals.any isF32 then ArrKind.f32
         else if vals.any isUtf8 then ArrKind.utf8 else ArrKind.bin) := by
  unfold coerceValues
  split <;> rename_i h
  · simp [kindOf, h]
  · split <;> rename_i h2 <;> simp [kindOf, h, h2]

/-- Slot `i` of the coerced array holds the `i`-th surviving value when its
kind matched the chosen one, and an Arrow null otherwise. -/
theorem coerceValues_entry (vals : List StorageValue) (i : Nat) :
    entryAt (coerceValues vals) i
      = (vals.get? i).map
          (fun v => if valKind v = kindOf (coerceValues vals) then some v else none) := by
  unfold coerceValues
  split
  · simp only [entryAt, List.get?_map, Option.map_map, kindOf]
    cases h : vals.get? i
    · rfl
    · rename_i v
      cases v <;> simp [Function.comp, valKind]
  · split
    · simp only [entryAt, List.get?_map, Option.map_map, kindOf]
      cases h : vals.get? i
      · rfl
      · rename_i v
        cases v <;> simp [Function.comp, valKind]
    · simp only [entryAt, List.get?_map, Option.map_map, kindOf]
      cases h : vals.get? i
      · rfl
      · rename_i v
        cases v <;> simp [Function.comp, valKind]

/-- C7 as stated is false: on the stored column `[NULL, 2.0]` the output
array is `[2.0]` — the SQL NULL row is dropped by
`filter_map(|v| v.ok())`, not preserved as an Arrow null. -/
theorem c7_counterexample : ¬ C7Claim := by
  intro h
  have inst := h "test" "t1" "c" [SqlVal.null, SqlVal.real 2]
      ⟨"c", OutArray.f32Arr [some 2]⟩ rfl
  have hlen := inst.1
  simp [outLen] at hlen

/-- C7 amended: `get` returns a single-column batch named after the
requested column; stored SQL NULLs (rows convertible to none of
f32/text/blob) are dropped; the array kind is `Float32` if any surviving
value is `Float32`, else `Utf8` if any is `Utf8`, else `Binary`; a slot
holds the corresponding surviving value when its kind is the chosen one
and an Arrow null otherwise. -/
theorem c7_get_data_coercion (subject target col : String) (rows : List SqlVal)
    (h1 : isValidSqlid (subject ++ "_" ++ target) = true)
    (h2 : isValidSqlid col = true) :
    ∃ b : OutBatch, (getDataModel subject target col rows).1 = .ok b
      ∧ b.fieldName = col
      ∧ b.arr = coerceValues (getDataValues rows)
      ∧ outLen b.arr = (rows.filter (fun v => !decide (v = SqlVal.null))).length
      ∧ kindOf b.arr
          = (if (getDataValues rows).any isF32 then ArrKind.f32
             else if (getDataValues rows).any isUtf8 then ArrKind.utf8
             else ArrKind.bin)
      ∧ ∀ i, entryAt b.arr i
          = ((getDataValues rows).get? i).map
              (fun v => if valKind v = kindOf b.arr then some v else none) := by
  refine ⟨⟨col, coerceValues (getDataValues rows)⟩, ?_, rfl, rfl, ?_, ?_, ?_⟩
  · simp [getDataModel, h1, h2]
  · exact (coerceValues_len _).trans (getDataValues_length rows)
  · exact coerceValues_kind _
  · intro i
    exact coerceValues_entry _ i

/-- Witness for C7's amended theorem: the stored column
`[NULL, 2.0, "a", blob]` yields the Float32 array `[2.0, null, null]`. -/
theorem c7_get_data_coercion_witness :
    ∃ b : OutBatch,
      (getDataModel "test" "t1" "c"
        [SqlVal.null, SqlVal.real 2, SqlVal.text "a", SqlVal.blob [7]]).1 = .ok b
      ∧ b.fieldName = "c"
      ∧ b.arr = coerceValues (getDataValues
          [SqlVal.null, SqlVal.real 2, SqlVal.text "a", SqlVal.blob [7]])
      ∧ outLen b.arr
          = ([SqlVal.null, SqlVal.real 2, SqlVal.text "a", SqlVal.blob [7]].filter
              (fun v => !decide (v = SqlVal.null))).length
      ∧ kindOf b.arr
          = (if (getDataValues
                [SqlVal.null, SqlVal.real 2, SqlVal.text "a", SqlVal.blob [7]]).any isF32
             then ArrKind.f32
             else if (getDataValues
                [SqlVal.null, SqlVal.real 2, SqlVal.text "a", SqlVal.blob [7]]).any isUtf8
             then ArrKind.utf8
             else ArrKind.bin)
      ∧ ∀ i, entryAt b.arr i
          = ((getDataValues
              [SqlVal.null, SqlVal.real 2, SqlVal.text "a", SqlVal.blob [7]]).get? i).map
              (fun v => if valKind v = kindOf b.arr then some v else none) :=
  c7_get_data_coercion "test" "t1" "c"
    [SqlVal.null, SqlVal.real 2, SqlVal.text "a", SqlVal.blob [7]]
    (by decide) (by decide)

/-- Decoding the canonical varint encoding of `n` (with anything after it)
returns `n` and consumes exactly the encoding's bytes. -/
theorem decodeVarint_enc (fuel : Nat) :
    ∀ (n : Nat), n < fuel → ∀ (rest : Bytes),
    decodeVarint (encVarintAux fuel n ++ rest)
      = some (n, (encVarintAux fuel n).length) := by
  induction fuel with
  | zero => intro n h; omega
  | succ f ih =>
    intro n h rest
    by_cases hn : n < 128
    · simp [encVarintAux, hn, decodeVarint]
    · have hdiv : n / 128 < n := Nat.div_lt_self (by omega) (by omega)
      have hf : n / 128 < f := by omega
      simp only [encVarintAux, if_neg hn, List.cons_append, decodeVarint]
      rw [if_neg (by omega)]
      rw [ih (n / 128) hf rest]
      simp only [List.length_cons]
      have : n % 128 + 128 - 128 + 128 * (n / 128) = n := by
        have := Nat.mod_add_div n 128
        omega
      rw [this]

/-- A single chunk holding exactly one whole frame is decoded into that
frame's payload, leaving an empty buffer. -/
theorem stepChunk_frame (m : Bytes) :
    stepChunk [] (encodeFrame m) = some (some m, []) := by
  have hd := decodeVarint_enc (m.length + 1) m.length (by omega) m
  rw [show encVarintAux (m.length + 1) m.length = encVarint m.length from rfl] at hd
  have hlen : (encVarint m.length ++ m).length
      = m.length + lengthDelimiterLen m.length := by
    simp [lengthDelimiterLen, List.length_append]
    omega
  have h1 : ((encVarint m.length ++ m).drop (encVarint m.length).length).take m.length
      = m := by
    rw [List.drop_left]
    exact List.take_length m
  have h2 : (encVarint m.length ++ m).drop (m.length + lengthDelimiterLen m.length)
      = [] := by
    apply List.drop_eq_nil_of_le
    omega
  simp only [stepChunk, encodeFrame, List.nil_append, hd]
  rw [if_neg (by omega), h1, h2]

/-- C3 amended: the decoder emits exactly the original message sequence
when each read chunk carries exactly one whole length-delimited frame.
(In general at most one message is emitted per chunk arrival and complete
frames still buffered at end-of-stream are discarded, so the output is
not chunking-independent — see the counterexample.) -/
theorem c3_decoder_aligned_chunks (msgs : List Bytes) :
    decodeChunks (msgs.map encodeFrame) = some msgs := by
  induction msgs with
  | nil => rfl
  | cons m ms ih =>
    unfold decodeChunks at ih ⊢
    simp only [List.map_cons, runFrom, stepChunk_frame]
    rw [ih]
    rfl

/-- C3 as stated is false: the two-message stream `[[], []]` encodes to
the bytes `[0, 0]`; delivered as the single chunk `[0, 0]` the decoder
emits only the first message (the second complete frame is still in the
buffer when end-of-stream arrives and is discarded), while delivered as
`[[0], [0]]` both messages are emitted. -/
theorem c3_counterexample : ¬ C3Claim := by
  intro h
  have := h [[], []] [[0, 0]] (by decide)
  rw [show decodeChunks [[0, 0]] = some [[]] from by decide] at this
  exact absurd this (by decide)

/-- C1: when the round-2 report's `report_data` differs from the round-1
challenge, or a launch measurement is configured and differs from the
report's, the handshake stream terminates with an unauthenticated status
and `valid_tokens` is unchanged; moreover (third conjunct) any step that
changes `valid_tokens` is a round-2 step whose verification succeeded with
matching `report_data` and (when configured) matching measurement. -/
theorem c1_handshake_attestation_gate (env : HSEnv) (tokens0 : List String)
    (ch0 r0 r1 : Bytes) (rest : List Bytes) (R : Report)
    (hver : env.verify r1 = .ok R)
    (hmis : R.report_data
        ≠ (if env.useTestChallenge then env.testChallenge else env.randChallenge)
      ∨ ∃ ld, env.serverLd = some ld ∧ R.measurement ≠ ld) :
    ((∃ s, (hsRun env ⟨0, ch0, tokens0⟩ (r0 :: r1 :: rest)).2.2 = some s
        ∧ s.code = GCode.unauthenticated)
      ∧ (hsRun env ⟨0, ch0, tokens0⟩ (r0 :: r1 :: rest)).1.tokens = tokens0)
    ∧ ∀ (st : HSState) (req : Bytes) (st' : HSState) (resp : Bytes),
        hsStep env st req = .ok (st', resp) → st'.tokens ≠ st.tokens →
        st.cnt = 1 ∧ ∃ Rr, env.verify req = .ok Rr
          ∧ Rr.report_data = st.challenge
          ∧ ∀ ld, env.serverLd = some ld → Rr.measurement = ld := by
  constructor
  · have hstep0 : hsStep env ⟨0, ch0, tokens0⟩ r0
        = .ok (⟨1, if env.useTestChallenge then env.testChallenge
                    else env.randChallenge, tokens0⟩,
               if env.useTestChallenge then env.testChallenge
               else env.randChallenge) := by
      simp [hsStep]
    have hstep1 : ∃ s, hsStep env
        ⟨1, if env.useTestChallenge then env.testChallenge
            else env.randChallenge, tokens0⟩ r1 = .error s
        ∧ s.code = GCode.unauthenticated := by
      rcases hmis with hmis | ⟨ld, hld, hm⟩
      · refine ⟨⟨GCode.unauthenticated,
          "attestation report data does not match challenge"⟩, ?_, rfl⟩
        simp [hsStep, hver, hmis]
      · by_cases hrd : R.report_data
            = (if env.useTestChallenge then env.testChallenge
               else env.randChallenge)
        · refine ⟨⟨GCode.unauthenticated,
            "launch digest does not match expected value"⟩, ?_, rfl⟩
          simp [hsStep, hver, hrd, hld, hm]
        · refine ⟨⟨GCode.unauthenticated,
            "attestation report data does not match challenge"⟩, ?_, rfl⟩
          simp [hsStep, hver, hrd]
    obtain ⟨s, hs, hcode⟩ := hstep1
    have hrun : hsRun env ⟨0, ch0, tokens0⟩ (r0 :: r1 :: rest)
        = (⟨1, if env.useTestChallenge then env.testChallenge
               else env.randChallenge, tokens0⟩,
           [if env.useTestChallenge then env.testChallenge
            else env.randChallenge], some s) := by
      simp [hsRun, hstep0, hs]
    rw [hrun]
    exact ⟨⟨s, rfl, hcode⟩, rfl⟩
  · intro st req st' resp hstep hneq
    obtain ⟨cnt, chal, toks⟩ := st
    by_cases h0 : cnt = 0
    · subst h0
      simp [hsStep] at hstep
      exact absurd (by simp [← hstep.1]) hneq
    · by_cases h1 : cnt = 1
      · subst h1
        refine ⟨rfl, ?_⟩
        cases hv : env.verify req with
        | error e => simp [hsStep, hv] at hstep
        | ok r =>
          by_cases hrd : r.report_data = chal
          · cases hld : env.serverLd with
            | none =>
              exact ⟨r, rfl, hrd, fun ld h => by cases h⟩
            | some ld =>
              by_cases hm : r.measurement = ld
              · refine ⟨r, rfl, hrd, fun ld' h => ?_⟩
                cases h
                exact hm
              · simp [hsStep, hv, hrd, hld, hm] at hstep
          · simp [hsStep, hv, hrd] at hstep
      · simp [hsStep, h0, h1] at hstep

/-- Witness for C1 at concrete inputs: test-challenge mode with challenge
bytes `[1, 2]`, a verifier returning a report whose `report_data` is
`[9]`, a two-request stream, and an initially empty token list. -/
theorem c1_handshake_attestation_gate_witness :
    (∃ s, (hsRun ⟨true, [1, 2], [], [], none, fun _ => .ok ⟨[9], []⟩⟩
        ⟨0, [], []⟩ [[], []]).2.2 = some s ∧ s.code = GCode.unauthenticated)
    ∧ (hsRun ⟨true, [1, 2], [], [], none, fun _ => .ok ⟨[9], []⟩⟩
        ⟨0, [], []⟩ [[], []]).1.tokens = [] :=
  (c1_handshake_attestation_gate
    ⟨true, [1, 2], [], [], none, fun _ => .ok ⟨[9], []⟩⟩ [] [] [] [] [] ⟨[9], []⟩
    rfl (Or.inl (by decide))).1

/-- ASCII byte concatenation distributes over string append. -/
theorem strBytes_append (s t : String) :
    strBytes (s ++ t) = strBytes s ++ strBytes t := by
  simp only [strBytes]
  rw [show (s ++ t).data = s.data ++ t.data from rfl, List.map_append]

/-- Every failure of the bearer extraction is an unauthenticated status. -/
theorem bearerFromMeta_err_code (v : Option Bytes) (s : GStatus)
    (h : bearerFromMeta v = .error s) : s.code = GCode.unauthenticated := by
  cases v with
  | none =>
    simp [bearerFromMeta] at h
    rw [← h]
  | some bs =>
    simp only [bearerFromMeta] at h
    by_cases hl : 7 ≤ bs.length
    · rw [if_pos hl] at h
      cases ht : toStr bs with
      | none => simp [ht] at h; rw [← h]
      | some str =>
        simp [ht] at h
        by_cases hp : takeChars 7 str = "Bearer "
        · simp [hp] at h
        · simp [hp] at h; rw [← h]
    · rw [if_neg hl] at h
      cases h
      rfl

/-- Auxiliary: `all` over a `toNat`-mapped character list. -/
theorem all_map_toNat (l : List Char) (p : Nat → Bool)
    (h : (l.all fun c => p c.toNat) = true) :
    (List.map Char.toNat l).all p = true := by
  induction l with
  | nil => rfl
  | cons c cs ih =>
    simp only [List.map_cons, List.all_cons, Bool.and_eq_true] at h ⊢
    exact ⟨h.1, ih h.2⟩

/-- A well-formed `"Bearer <tok>"` header value (visible-ASCII token)
extracts exactly the token. -/
theorem bearerFromMeta_of_bearer (T : String)
    (h : T.data.all (fun c => visAscii c.toNat) = true) :
    bearerFromMeta (some (strBytes ("Bearer " ++ T))) = .ok T := by
  have hdata : ("Bearer " ++ T).data = "Bearer ".data ++ T.data := rfl
  have h7 : ("Bearer ").data.length = 7 := by decide
  have hlen : 7 ≤ (strBytes ("Bearer " ++ T)).length := by
    simp [strBytes, hdata, List.length_map, List.length_append, h7]
  have hall : (strBytes ("Bearer " ++ T)).all visAscii = true := by
    simp only [strBytes, hdata, List.map_append, List.all_append, Bool.and_eq_true]
    refine ⟨by decide, ?_⟩
    exact all_map_toNat T.data _ h
  have hid : ∀ l : List Char, l.map (Char.ofNat ∘ Char.toNat) = l := by
    intro l
    induction l with
    | nil => rfl
    | cons c cs ih => simp [Function.comp, Char.ofNat_toNat, ih]
  have hmap : (strBytes ("Bearer " ++ T)).map Char.ofNat
      = "Bearer ".data ++ T.data := by
    simp only [strBytes, hdata, List.map_append, List.map_map]
    rw [hid, hid]
  have htos : toStr (strBytes ("Bearer " ++ T))
      = some ⟨"Bearer ".data ++ T.data⟩ := by
    unfold toStr
    rw [if_pos hall, hmap]
  have htake : takeChars 7 ⟨"Bearer ".data ++ T.data⟩ = "Bearer " := by
    have ht : List.take 7 ("Bearer ".data ++ T.data) = "Bearer ".data := by
      rw [← h7]
      exact List.take_left _ _
    simp [takeChars, ht]
  have hdrop : dropChars 7 ⟨"Bearer ".data ++ T.data⟩ = T := by
    have hd : List.drop 7 ("Bearer ".data ++ T.data) = T.data := by
      rw [← h7]
      exact List.drop_left _ _
    simp [dropChars, hd]
  simp only [bearerFromMeta]
  rw [if_pos hlen, htos]
  show (if takeChars 7 ⟨"Bearer ".data ++ T.data⟩ = "Bearer "
        then Except.ok (dropChars 7 ⟨"Bearer ".data ++ T.data⟩)
        else Except.error ⟨GCode.unauthenticated, "Invalid format"⟩) = Except.ok T
  rw [if_pos htake, hdrop]

/-- C2: a `DoGet`/`DoPut` request whose `x-yak-authorization` metadata is
missing, malformed, or carries a token outside `valid_tokens` is rejected
with an unauthenticated status and an empty effect trace (no data read or
written); the third conjunct identifies the token a well-formed
`"Bearer T"` header carries. -/
theorem c2_session_token_gate (env : ServerEnv) (metaYak metaAuth : Option Bytes)
    (ticket : String) (items : List PutItem)
    (h : ∀ T, bearerFromMeta metaYak = .ok T → env.validTokens.contains T = false) :
    (∃ m, doGetModel env metaYak metaAuth ticket
        = (.err ⟨GCode.unauthenticated, m⟩, []))
    ∧ (∃ m, doPutModel env metaYak metaAuth items
        = (.err ⟨GCode.unauthenticated, m⟩, []))
    ∧ ∀ (T : String), T.data.all (fun c => visAscii c.toNat) = true →
        bearerFromMeta (some (strBytes ("Bearer " ++ T))) = .ok T := by
  have htp : ∃ m, tokenPhase env.validTokens metaYak
      = .error ⟨GCode.unauthenticated, m⟩ := by
    cases hb : bearerFromMeta metaYak with
    | error s =>
      have hc : s.code = GCode.unauthenticated := bearerFromMeta_err_code _ _ hb
      obtain ⟨c, m⟩ := s
      cases hc
      exact ⟨m, by simp [tokenPhase, hb]⟩
    | ok T =>
      have hcont := h T hb
      refine ⟨"Invalid token: " ++ T, ?_⟩
      simp only [tokenPhase, hb]
      rw [hcont]
      rfl
  obtain ⟨m, hm⟩ := htp
  refine ⟨⟨m, by simp [doGetModel, hm]⟩, ⟨m, by simp [doPutModel, hm]⟩, ?_⟩
  exact fun T hT => bearerFromMeta_of_bearer T hT

/-- Witness for C2: empty `valid_tokens`, a syntactically well-formed
bearer header carrying `"deadbeef"`. -/
theorem c2_session_token_gate_witness :
    (∃ m, doGetModel (testEnv [])
        (some (strBytes ("Bearer " ++ "deadbeef"))) none ""
        = (.err ⟨GCode.unauthenticated, m⟩, []))
    ∧ (∃ m, doPutModel (testEnv [])
        (some (strBytes ("Bearer " ++ "deadbeef"))) none []
        = (.err ⟨GCode.unauthenticated, m⟩, [])) :=
  ⟨(c2_session_token_gate (testEnv [])
      (some (strBytes ("Bearer " ++ "deadbeef"))) none "" []
      (fun _ _ => rfl)).1,
   (c2_session_token_gate (testEnv [])
      (some (strBytes ("Bearer " ++ "deadbeef"))) none "" []
      (fun _ _ => rfl)).2.1⟩

/-- C4 as stated is false: `GetTicket::from_json` is generated by the
`jsonize!` macro, which `unwrap`s the `serde_json` result, so an
authorized `DoGet` with the non-JSON ticket `"foo"` panics instead of
returning *invalid_argument*. -/
theorem c4_counterexample : ¬ C4Claim := by
  intro h
  obtain ⟨m, tr, hmt⟩ := h (testEnv ["t"])
      (some (strBytes ("Bearer " ++ "t"))) none "foo"
      ⟨"t", rfl⟩ ⟨"test", rfl, rfl⟩ rfl
  have hval : doGetModel (testEnv ["t"])
      (some (strBytes ("Bearer " ++ "t"))) none "foo"
      = (.panicked "from_json unwrap", []) := rfl
  rw [hval] at hmt
  have := congrArg Prod.fst hmt
  simp at this

/-- C4 amended: an authorized `DoGet` whose ticket body fails to parse
panics in `from_json`'s `unwrap` (with no SQL or provider access); no
gRPC status of any class is returned. -/
theorem c4_ticket_parse_unwrap (env : ServerEnv)
    (metaYak metaAuth : Option Bytes) (ticket : String)
    (h1 : ∃ tok, tokenPhase env.validTokens metaYak = .ok tok)
    (h2 : ∃ subj, subjectPhase env.verify metaAuth = .ok subj
      ∧ authenticateSubject env.authorizedSubject subj = true)
    (h3 : env.parseTicket ticket = none) :
    doGetModel env metaYak metaAuth ticket = (.panicked "from_json unwrap", []) := by
  obtain ⟨tok, h1⟩ := h1
  obtain ⟨subj, h2a, h2b⟩ := h2
  simp [doGetModel, h1, h2a, h2b, doGetBody, h3]

/-- Witness for C4's amended theorem: valid session token `"t"`, no OIDC
header (subject `"test"`), ticket `"foo"`, a parse oracle failing as
`serde_json` does on `"foo"`. -/
theorem c4_ticket_parse_unwrap_witness :
    doGetModel (testEnv ["t"]) (some (strBytes ("Bearer " ++ "t"))) none "foo"
      = (.panicked "from_json unwrap", []) :=
  c4_ticket_parse_unwrap (testEnv ["t"]) (some (strBytes ("Bearer " ++ "t")))
    none "foo" ⟨"t", rfl⟩ ⟨"test", rfl, rfl⟩ rfl

/-- C8 as stated is false: a present but malformed `authorization` value
(here the single byte `"X"`) carries no JWT, is never verified, and the
request proceeds with subject `"test"` — the code only distinguishes
"bearer extraction succeeded" from "failed", not "absent" from
"present". -/
theorem c8_counterexample : ¬ C8Claim := by
  intro h
  have h2 := (h (fun _ _ _ => .error "") (strBytes "X")).2 "test" rfl
  obtain ⟨jwt, claims, heq, -, -⟩ := h2
  have hlen := congrArg List.length heq
  have hx : (strBytes "X").length = 1 := by decide
  have hge : 7 ≤ (strBytes ("Bearer " ++ jwt)).length := by
    rw [strBytes_append, List.length_append]
    have h7 : (strBytes "Bearer ").length = 7 := by decide
    omega
  rw [hx] at hlen
  omega

/-- C8 amended: with the `authorization` metadata absent *or malformed*
(too short, non-ASCII, or not `"Bearer "`-prefixed) the subject is
`"test"` with no verification; a well-formed `"Bearer jwt"` value is
verified through the JWKS oracle with algorithm RS256 and the two fixed
audiences — success makes the subject `claims.sub` with `"|"` rewritten
to `"_"`, failure is unauthenticated. -/
theorem c8_subject_determination
    (verify : JwtAlg → List String → String → Except String Claims)
    (v : Bytes) (jwt : String) (claims : Claims) (e : String)
    (hascii : jwt.data.all (fun c => visAscii c.toNat) = true) :
    subjectPhase verify none = .ok "test"
    ∧ (∀ s, bearerFromMeta (some v) = .error s →
        subjectPhase verify (some v) = .ok "test")
    ∧ (verify JwtAlg.RS256 jwtAudiences jwt = .ok claims →
        subjectPhase verify (some (strBytes ("Bearer " ++ jwt)))
          = .ok (replacePipe claims.sub))
    ∧ (verify JwtAlg.RS256 jwtAudiences jwt = .error e →
        subjectPhase verify (some (strBytes ("Bearer " ++ jwt)))
          = .error ⟨GCode.unauthenticated, "jwt should be valid: " ++ e⟩) := by
  refine ⟨rfl, ?_, ?_, ?_⟩
  · intro s hs
    simp [subjectPhase, hs]
  · intro hv
    simp [subjectPhase, bearerFromMeta_of_bearer jwt hascii, hv]
  · intro hv
    simp [subjectPhase, bearerFromMeta_of_bearer jwt hascii, hv]

/-- Witness for C8's amended theorem: the verifier accepts the JWT
`"abc"` with subject `"a|b"`, giving subject `"a_b"`. -/
theorem c8_subject_determination_witness :
    subjectPhase
      (fun _ _ j => if j = "abc"
        then Except.ok ⟨"i", "a|b", [], 0, 0, "s", "z"⟩ else Except.error "bad")
      (some (strBytes ("Bearer " ++ "abc")))
      = .ok (replacePipe "a|b") :=
  (c8_subject_determination
    (fun _ _ j => if j = "abc"
      then Except.ok ⟨"i", "a|b", [], 0, 0, "s", "z"⟩ else Except.error "bad")
    (strBytes "X") "abc" ⟨"i", "a|b", [], 0, 0, "s", "z"⟩ "bad"
    (by decide)).2.2.1 rfl

/-- With no Schema frame among the remaining items, the `do_put` loop with
no table yet either panics at a RecordBatch's `expect` or finishes with
`target` still `None` and an empty trace. -/
theorem doPutLoop_no_schema (env : ServerEnv) (subject : String)
    (items : List PutItem) (policy : Option String)
    (h : items.all (fun i => !isSchemaItem i) = true) :
    doPutLoop env subject none policy items
      = (.panicked "target not created yet", [])
    ∨ ∃ p, doPutLoop env subject none policy items = (.ok (none, p), []) := by
  induction items generalizing policy with
  | nil => exact Or.inr ⟨policy, rfl⟩
  | cons i rest ih =>
    rw [List.all_cons, Bool.and_eq_true] at h
    cases i with
    | errItem => exact ih policy h.2
    | okItem appMeta payload =>
      cases payload with
      | nonePayload =>
        exact ih (if appMeta.isEmpty then policy else some (lossyString appMeta)) h.2
      | schema fields => simp [isSchemaItem] at h
      | batch fields numRows => exact Or.inl rfl

/-- A RecordBatch item preceded only by non-Schema items makes the
`do_put` loop panic at `expect("target not created yet")`. -/
theorem doPutLoop_batch_before_schema (env : ServerEnv) (subject : String)
    (pre post : List PutItem) (i : PutItem) (policy : Option String)
    (hb : isBatchItem i = true)
    (hpre : pre.all (fun x => !isSchemaItem x) = true) :
    doPutLoop env subject none policy (pre ++ i :: post)
      = (.panicked "target not created yet", []) := by
  induction pre generalizing policy with
  | nil =>
    cases i with
    | errItem => simp [isBatchItem] at hb
    | okItem appMeta payload =>
      cases payload with
      | nonePayload => simp [isBatchItem] at hb
      | schema fields => simp [isBatchItem] at hb
      | batch fields numRows => rfl
  | cons x xs ih =>
    rw [List.all_cons, Bool.and_eq_true] at hpre
    cases x with
    | errItem => exact ih policy hpre.2
    | okItem appMeta payload =>
      cases payload with
      | nonePayload =>
        exact ih (if appMeta.isEmpty then policy else some (lossyString appMeta))
          hpre.2
      | schema fields => simp [isSchemaItem] at hpre
      | batch fields numRows => rfl

/-- C10: an authorized `DoPut` whose decoded stream contains no Schema
frame (including the empty stream and streams of skipped decode errors),
or whose first RecordBatch frame precedes every Schema frame, does not
return a gRPC status: it panics at
`target.as_ref().expect("target not created yet")`. -/
theorem c10_doput_missing_schema_panics (env : ServerEnv)
    (metaYak metaAuth : Option Bytes) (items : List PutItem)
    (h1 : ∃ tok, tokenPhase env.validTokens metaYak = .ok tok)
    (h2 : ∃ subj, subjectPhase env.verify metaAuth = .ok subj
      ∧ authenticateSubject env.authorizedSubject subj = true)
    (h : items.all (fun i => !isSchemaItem i) = true
      ∨ ∃ pre i post, items = pre ++ i :: post ∧ isBatchItem i = true
          ∧ pre.all (fun x => !isSchemaItem x) = true) :
    doPutModel env metaYak metaAuth items
      = (.panicked "target not created yet", []) := by
  obtain ⟨tok, h1⟩ := h1
  obtain ⟨subj, h2a, h2b⟩ := h2
  have hloop : doPutLoop env subj none none items
      = (.panicked "target not created yet", [])
      ∨ ∃ p, doPutLoop env subj none none items = (.ok (none, p), []) := by
    rcases h with h | ⟨pre, i, post, rfl, hb, hpre⟩
    · exact doPutLoop_no_schema env subj items none h
    · exact Or.inl (doPutLoop_batch_before_schema env subj pre post i none hb hpre)
  rcases hloop with hloop | ⟨p, hloop⟩ <;>
    simp [doPutModel, h1, h2a, h2b, hloop]

/-- Witness for C10: an authorized `DoPut` with an empty decoded
stream. -/
theorem c10_doput_missing_schema_panics_witness :
    doPutModel (testEnv ["t"]) (some (strBytes ("Bearer " ++ "t"))) none []
      = (.panicked "target not created yet", []) :=
  c10_doput_missing_schema_panics (testEnv ["t"])
    (some (strBytes ("Bearer " ++ "t"))) none []
    ⟨"t", rfl⟩ ⟨"test", rfl, rfl⟩ (Or.inl rfl)

/-- C6 (code divergence): `do_put` from `DoPutSendProgress` with data to
send and the bounded queue full reports `WouldBlock` — a state-class
error — but leaves the client `Closed` (the `mem::replace`d state is
never restored on the `try_send` error path, and the send channel is
dropped), so the pre-state is NOT preserved and a retry is impossible. -/
theorem c6_doput_fullqueue_closes_state :
    clientDoPut (ClientState.doPutSendProgress 5 6) (some 0) false
        SendRes.fullQueue
      = (ClientState.closed, .error ErrorCode.wouldBlock)
    ∧ isStateClassError ErrorCode.wouldBlock = true
    ∧ ClientState.closed ≠ ClientState.doPutSendProgress 5 6 :=
  ⟨rfl, rfl, by decide⟩
